import Mathlib

/-! Verification development for the interactive graph-exploration component
(`src/web/app/components/GraphVisualization.tsx`): a shallow embedding of its
data model, search/filter pipeline, ego-network computation, drag state
machine, viewport zoom clamping, ego-graph initial layout and a heap model of
the ego-graph sub-simulation, with theorems settling the specified
properties. JavaScript string builtins are embedded as executable functions
over `List Char`. -/

/-- Node record as declared in the component (`interface GraphNode`); the
optional descriptive fields become `Option`. -/
structure GraphNode where
  id : String
  type : String
  content : Option String := none
  entity_type : Option String := none
  name : Option String := none
  canonical_name : Option String := none
  paper_id : Option String := none
  statement : Option String := none
  year : Option Nat := none
  deriving Repr, DecidableEq

/-- Edge record (`interface GraphEdge`); in the loaded `graphData` the
endpoints are raw node-id strings. -/
structure GraphEdge where
  source : String
  target : String
  type : Option String := none
  context : Option String := none
  deriving Repr, DecidableEq

/-- Loaded graph document (`interface GraphData`). -/
structure GraphData where
  nodes : List GraphNode
  edges : List GraphEdge
  deriving Repr, DecidableEq

/-- ASCII lower-casing of one character, as `String.prototype.toLowerCase`
acts on the ASCII range. -/
def lowerChar (c : Char) : Char :=
  if 'A' ≤ c ∧ c ≤ 'Z' then Char.ofNat (c.toNat + 32) else c

/-- JavaScript `toLowerCase` on a character list. -/
def jsToLower (s : List Char) : List Char :=
  s.map lowerChar

/-- JavaScript `String.prototype.includes`: the needle occurs as a
contiguous substring of the haystack. -/
def jsIncludes (s q : List Char) : Bool :=
  s.tails.any (fun t => q.isPrefixOf t)

/-- JavaScript `String.prototype.trim`: whitespace stripped from both
ends. -/
def jsTrim (s : String) : List Char :=
  ((s.data.dropWhile Char.isWhitespace).reverse.dropWhile
    Char.isWhitespace).reverse

/-- JavaScript `Array.prototype.join(' ')` on the present field values. -/
def joinSpace : List String → List Char
  | [] => []
  | [s] => s.data
  | s :: rest => s.data ++ ' ' :: joinSpace rest

/-- Search text of a node, as built in the filter effect: the fields
`[node.id, node.name, node.canonical_name, node.paper_id, node.type,
node.entity_type, node.content]` are passed through `filter(Boolean)`
(dropping absent and empty values) and joined with single spaces. The
list contains `paper_id` and does not contain `statement`. -/
def searchText (n : GraphNode) : List Char :=
  joinSpace
    ((([some n.id, n.name, n.canonical_name, n.paper_id, some n.type,
        n.entity_type, n.content]).filterMap id).filter (fun s => s ≠ ""))

/-- Search text as the specification words it: the present descriptive
fields `id, name, canonicalName, statement, type, entityType, content`,
with `statement` searched. Kept separately to compare against the
component's `searchText`. -/
def specSearchText (n : GraphNode) : List Char :=
  joinSpace
    ((([some n.id, n.name, n.canonical_name, n.statement, some n.type,
        n.entity_type, n.content]).filterMap id).filter (fun s => s ≠ ""))

/-- Type-filter stage of the filter effect: when `selectedTypes` is
non-empty keep only the nodes whose `type` is among them. -/
def typeFiltered (nodes : List GraphNode) (selectedTypes : List String) :
    List GraphNode :=
  if 0 < selectedTypes.length then
    nodes.filter (fun n => selectedTypes.contains n.type)
  else nodes

/-- Search/filter pipeline of the component: the type filter, then — only
when the trimmed query is non-empty — the text filter, which lower-cases
the (untrimmed) query and the node's search text and tests substring
containment. -/
def filterNodes (nodes : List GraphNode) (searchQuery : String)
    (selectedTypes : List String) : List GraphNode :=
  let filtered := typeFiltered nodes selectedTypes
  if jsTrim searchQuery ≠ [] then
    filtered.filter (fun n =>
      jsIncludes (jsToLower (searchText n)) (jsToLower searchQuery.data))
  else filtered

/-- Node whose only occurrence of the query is in its `statement` field. -/
def c1Node : GraphNode :=
  { id := "n1", type := "Result", statement := some "sirt1 activation" }

/-- Incoming-pair candidate of one edge, following the `forEach` body of
`findConnectedNodes`: when the edge's target is the selected id, resolve the
source id in the node list and pair the resolved node with the edge; an
unresolvable source yields nothing. -/
def inPair (g : GraphData) (nodeId : String) (e : GraphEdge) :
    Option (GraphNode × GraphEdge) :=
  if e.target = nodeId then
    (g.nodes.find? (fun n => n.id == e.source)).map (fun s => (s, e))
  else none

/-- Outgoing-pair candidate of one edge: the `else if` branch of the
`forEach` body fires only when the target is not the selected id and the
source is; the target id is then resolved, an unresolvable target yields
nothing. -/
def outPair (g : GraphData) (nodeId : String) (e : GraphEdge) :
    Option (GraphNode × GraphEdge) :=
  if e.target ≠ nodeId ∧ e.source = nodeId then
    (g.nodes.find? (fun n => n.id == e.target)).map (fun t => (t, e))
  else none

/-- Accumulator step of `findConnectedNodes`: the body of the
`graphData.edges.forEach` loop, pushing onto the incoming or the outgoing
list. -/
def connStep (g : GraphData) (nodeId : String)
    (acc : List (GraphNode × GraphEdge) × List (GraphNode × GraphEdge))
    (edge : GraphEdge) :
    List (GraphNode × GraphEdge) × List (GraphNode × GraphEdge) :=
  if edge.target = nodeId then
    match g.nodes.find? (fun n => n.id == edge.source) with
    | some s => (acc.1 ++ [(s, edge)], acc.2)
    | none => acc
  else if edge.source = nodeId then
    match g.nodes.find? (fun n => n.id == edge.target) with
    | some t => (acc.1, acc.2 ++ [(t, edge)])
    | none => acc
  else acc

/-- `findConnectedNodes` from the component: one pass over all edges
accumulating the `(node, edge)` pairs of the ego network, incoming first
component, outgoing second. -/
def findConnectedNodes (g : GraphData) (nodeId : String) :
    List (GraphNode × GraphEdge) × List (GraphNode × GraphEdge) :=
  g.edges.foldl (connStep g nodeId) ([], [])

/-- Incoming pairs as a comprehension over the edge list: `(source(e), e)`
for each edge `e` with `target(e) = nodeId` whose source id resolves in the
node list. -/
def specIncoming (g : GraphData) (nodeId : String) :
    List (GraphNode × GraphEdge) :=
  g.edges.filterMap (inPair g nodeId)

/-- Outgoing pairs as a comprehension over the edge list: `(target(e), e)`
for each edge `e` with `source(e) = nodeId` that is not a self-loop, whose
target id resolves in the node list. -/
def specOutgoing (g : GraphData) (nodeId : String) :
    List (GraphNode × GraphEdge) :=
  g.edges.filterMap (outPair g nodeId)

/-- Single node used in the self-loop counterexample. -/
def nodeA : GraphNode := { id := "A", type := "Entity" }

/-- Self-loop edge on `nodeA`. -/
def edgeAA : GraphEdge := { source := "A", target := "A" }

/-- Graph consisting of one node with a self-loop. -/
def gSelfLoop : GraphData := { nodes := [nodeA], edges := [edgeAA] }

/-- Nodes and edge of the two-node witness graph. -/
def nodeP : GraphNode := { id := "P", type := "Paper" }

/-- Second node of the two-node witness graph. -/
def nodeQ : GraphNode := { id := "Q", type := "Entity" }

/-- Edge from `nodeP` to `nodeQ`. -/
def edgePQ : GraphEdge := { source := "P", target := "Q" }

/-- Two-node witness graph with a single edge `P → Q`. -/
def gPQ : GraphData := { nodes := [nodeP, nodeQ], edges := [edgePQ] }

/-- View selected by the component's top-level render branches. -/
inductive RenderView where
  | loadingView
  | errorView
  | noDataView
  | canvasView
  deriving Repr, DecidableEq

/-- Top-level render decision of the component: the loading screen, then
the error screen, then the "no data" message exactly when `graphData` is
null, otherwise the canvas layout. -/
def renderView (loading : Bool) (error : Option String)
    (graphData : Option GraphData) : RenderView :=
  if loading then .loadingView
  else if error.isSome then .errorView
  else
    match graphData with
    | none => .noDataView
    | some _ => .canvasView

/-- Guard of the simulation-initialisation effect: it returns early only
when `graphData` is null or the svg ref is unset; otherwise it builds and
starts a d3 force simulation over (a clone of) the node list, empty or
not. -/
def simulationStarts (graphData : Option GraphData) (svgPresent : Bool) :
    Bool :=
  graphData.isSome && svgPresent

/-- Loaded graph with zero nodes. -/
def zeroNodeGraph : GraphData := { nodes := [], edges := [] }

/-- Lower bound of the configured `scaleExtent([0.1, 4])`. -/
def scaleExtentLo : ℚ := 1 / 10

/-- Upper bound of the configured `scaleExtent([0.1, 4])`. -/
def scaleExtentHi : ℚ := 4

/-- Scale clamping performed by the zoom behavior: d3 constrains the scale
requested by any user wheel/zoom gesture into the configured extent. -/
def constrainScale (k : ℚ) : ℚ :=
  max scaleExtentLo (min scaleExtentHi k)

/-- Effective viewport scale after a user zoom gesture multiplies the
current scale by the gesture's factor. -/
def applyUserZoom (currentScale factor : ℚ) : ℚ :=
  constrainScale (currentScale * factor)

/-- Position-relevant state of a simulation node: current coordinates and
the pin (`fx`, `fy`, null when absent). -/
structure SimNode where
  x : Int
  y : Int
  fx : Option Int
  fy : Option Int
  deriving Repr, DecidableEq

/-- Events acting on a dragged node: the three d3 drag handlers and a
simulation tick. -/
inductive DragEvent where
  | dragStart
  | dragMove (px py : Int)
  | tick
  | dragEnd
  deriving Repr, DecidableEq

/-- One step of the drag/tick state machine, following the `d3.drag()`
handlers: `start` pins the node at its current position (`d.fx = d.x`),
`drag` re-pins it at the pointer (`d.fx = event.x`), `end` clears the pin
(`d.fx = null`). The handlers never write `x`/`y`; only a simulation tick
does, copying the pin into the position when pinned and otherwise applying
the force-integration step, abstracted as `integrate` (consulted only for
unpinned axes). -/
def stepDrag (integrate : SimNode → Int × Int) (n : SimNode) :
    DragEvent → SimNode
  | .dragStart => { n with fx := some n.x, fy := some n.y }
  | .dragMove px py => { n with fx := some px, fy := some py }
  | .tick =>
      { n with x := n.fx.getD (integrate n).1, y := n.fy.getD (integrate n).2 }
  | .dragEnd => { n with fx := none, fy := none }

/-- Run a sequence of drag/tick events on a node. -/
def runDrag (integrate : SimNode → Int × Int) (n : SimNode)
    (events : List DragEvent) : SimNode :=
  events.foldl (stepDrag integrate) n

/-- Initial placement of one ego-graph clone: either pinned at the panel
centre, or on a circle of the given radius at the given angle, recorded as
the fraction of a full turn (`angleTurns = angle / 2π`, so `cos`/`sin` need
not be evaluated: two circle placements coincide iff their turn fractions
differ by an integer). -/
inductive LocalInitPos where
  | pinnedCenter
  | onCircle (angleTurns : ℚ) (radius : ℚ)
  deriving Repr, DecidableEq

/-- Initial layout of the ego-graph clones (`nodesCopy`): mapping over the
full local node list (selected node first) with its index `i`, a node with
the selected id is pinned at the panel centre, and every other node is
placed on a circle of radius 80 at angle `i * 2π / (length - 1)`, here the
turn fraction `i / (length - 1)`. -/
def nodesCopyInit (selId : String) (ids : List String) :
    List (String × LocalInitPos) :=
  ids.enum.map (fun p =>
    if p.2 = selId then (p.2, LocalInitPos.pinnedCenter)
    else (p.2,
      LocalInitPos.onCircle ((p.1 : ℚ) / ((ids.length : ℚ) - 1)) 80))

/-- Viewport transform `{translateX, translateY, scale}`. -/
structure Transform where
  k : ℚ
  tx : ℚ
  ty : ℚ
  deriving Repr, DecidableEq

/-- Component state touched by `focusOnNodeFromSearch`. -/
structure ViewState where
  selected : Option String
  showFullContent : Bool
  showLocalGraph : Bool
  transform : Transform
  deriving Repr, DecidableEq

/-- Transform built by the focus animation:
`zoomIdentity.translate(w/2, h/2).scale(2.5).translate(-x, -y)`, i.e. scale
`5/2` with translation `(w/2 - 2.5·x, h/2 - 2.5·y)`. -/
def focusTransform (w h x y : ℚ) : Transform :=
  { k := 5 / 2, tx := w / 2 - (5 / 2) * x, ty := h / 2 - (5 / 2) * y }

/-- `focusOnNodeFromSearch` from the component: the id is looked up in
`graphData.nodes`; when absent the whole body is skipped — no selection
change, no polling, no transform change. When present the node is selected,
the content/local-graph flags collapse, and the bounded polling loop (the
immediate attempt plus timed retries, at most 8 observations in all,
spaced ~250 ms) focuses the viewport at the first defined position it
observes; `obs` is the sequence of position observations the attempts would
see. -/
def focusOnNodeFromSearch (g : GraphData) (obs : List (Option (ℚ × ℚ)))
    (w h : ℚ) (nodeId : String) (st : ViewState) : ViewState :=
  match g.nodes.find? (fun n => n.id == nodeId) with
  | none => st
  | some _ =>
      let st1 : ViewState :=
        { st with selected := some nodeId, showFullContent := false,
                  showLocalGraph := false }
      match (obs.take 8).findSome? id with
      | some p => { st1 with transform := focusTransform w h p.1 p.2 }
      | none => st1

/-- Concrete view state used by the focus witness. -/
def stW : ViewState :=
  { selected := none, showFullContent := false, showLocalGraph := false,
    transform := { k := 1, tx := 0, ty := 0 } }

/-- Heap reference: object identity of one JavaScript node object. -/
abbrev Ref := Nat

/-- Value of one node object: id plus the mutable position state touched by
the ego-graph sub-simulation. -/
structure NodeObj where
  id : String
  x : ℚ
  y : ℚ
  vx : ℚ
  vy : ℚ
  fx : Option ℚ
  fy : Option ℚ
  deriving Repr, DecidableEq

/-- Heap of node objects: association list from references to values. -/
abbrev Store := List (Ref × NodeObj)

/-- Read a node object (first binding of the reference). -/
def lookupRef : Store → Ref → Option NodeObj
  | [], _ => none
  | q :: t, r => if q.1 = r then some q.2 else lookupRef t r

/-- Mutate the object at one reference in place. -/
def writeRef (σ : Store) (r : Ref) (f : NodeObj → NodeObj) : Store :=
  σ.map (fun p => if p.1 = r then (p.1, f p.2) else p)

/-- Largest reference currently allocated in the store. -/
def maxRef (σ : Store) : Ref :=
  σ.foldr (fun p m => max p.1 m) 0

/-- Clones built by `createLocalGraph`
(`nodesCopy = localNodes.map((d, i) => ({...d, ...}))`): every local node is
shallow-copied into a freshly allocated object (the spread builds a new
object, so the clone gets a reference above every existing one), the
selected node pinned at the panel centre with zeroed velocity, the others
placed at their circle position (`initPos`, abstracting the `cos`/`sin`
arithmetic) with zeroed velocity. -/
def cloneList (σ : Store) (selId : String) (localRefs : List Ref)
    (w h : ℚ) (initPos : Nat → ℚ × ℚ) : Store :=
  localRefs.enum.filterMap (fun p =>
    (lookupRef σ p.2).map (fun o =>
      (maxRef σ + 1 + p.1,
        if o.id = selId then
          { o with x := w / 2, y := h / 2, vx := 0, vy := 0,
                   fx := some (w / 2), fy := some (h / 2) }
        else
          { o with x := (initPos p.1).1, y := (initPos p.1).2,
                   vx := 0, vy := 0 })))

/-- `createLocalGraph` allocation step: the store grown by the clones,
paired with the clone references the sub-simulation will act on. -/
def createLocalGraph (σ : Store) (selId : String) (localRefs : List Ref)
    (w h : ℚ) (initPos : Nat → ℚ × ℚ) : Store × List Ref :=
  (σ ++ cloneList σ selId localRefs w h initPos,
   (cloneList σ selId localRefs w h initPos).map Prod.fst)

/-- Per-tick clamp of the ego sub-simulation:
`d.x = Math.max(25, Math.min(width - 25, d.x || width/2))` (and likewise
for `y`), including the JavaScript falsy fallback at coordinate 0. -/
def clampWrite (w h : ℚ) (o : NodeObj) : NodeObj :=
  { o with
    x := max 25 (min (w - 25) (if o.x = 0 then w / 2 else o.x)),
    y := max 25 (min (h - 25) (if o.y = 0 then h / 2 else o.y)) }

/-- One tick of the ego sub-simulation's bounds checking: the clamp is
written to every clone. -/
def egoTick (σ : Store) (egoRefs : List Ref) (w h : ℚ) : Store :=
  egoRefs.foldl (fun σ1 r => writeRef σ1 r (clampWrite w h)) σ

/-- Delayed pin release (`setTimeout(..., 1000)`): the clone whose id is
the selected id gets `fx = fy = null`. -/
def releasePin (σ : Store) (egoRefs : List Ref) (selId : String) : Store :=
  match egoRefs.find? (fun r =>
      ((lookupRef σ r).map NodeObj.id) == some selId) with
  | some r => writeRef σ r (fun o => { o with fx := none, fy := none })
  | none => σ

/-- Operations the ego sub-simulation performs after allocation. -/
inductive EgoOp where
  | tick
  | release
  deriving Repr, DecidableEq

/-- Run any interleaving of clamp ticks and the pin release over the
store. -/
def runEgoOps (selId : String) (egoRefs : List Ref) (w h : ℚ)
    (σ : Store) (ops : List EgoOp) : Store :=
  ops.foldl (fun σ1 op =>
    match op with
    | EgoOp.tick => egoTick σ1 egoRefs w h
    | EgoOp.release => releasePin σ1 egoRefs selId) σ

/-- First node object of the heap-model witness store. -/
def objA : NodeObj :=
  { id := "A", x := 10, y := 20, vx := 0, vy := 0, fx := none, fy := none }

/-- Second node object of the heap-model witness store. -/
def objB : NodeObj :=
  { id := "B", x := 30, y := 40, vx := 0, vy := 0, fx := none, fy := none }

/-- Witness store holding the two main-graph node objects. -/
def storeW : Store := [(0, objA), (1, objB)]

/-- C1: counterexample. The node `{id := "n1", type := "Result",
statement := "sirt1 activation"}` matches the query `"sirt1"` in the
specification's field list (which includes `statement`), yet the component's
text filter rejects it: the code searches `paper_id` instead of `statement`,
so a node whose only match is in `statement` does not pass the filter. -/
theorem c1_statement_only_node_rejected :
    filterNodes [c1Node] "sirt1" [] = [] ∧
      jsIncludes (jsToLower (specSearchText c1Node))
        (jsToLower "sirt1".data) = true := by
  constructor
  · decide
  · decide

/-- C1 (amended): for every node list, query and node, the node survives the
filter pipeline (with no active type filter) iff it is in the list and either
the query trims to the empty string (a blank query disables the text filter)
or the lower-cased query is a substring of the lower-cased space-joined
concatenation of the node's present, non-empty fields `id, name,
canonical_name, paper_id, type, entity_type, content` — `paper_id`, not
`statement`, is searched. -/
theorem c1_text_filter_amended (ns : List GraphNode) (q : String)
    (n : GraphNode) :
    n ∈ filterNodes ns q [] ↔
      n ∈ ns ∧ (jsTrim q = [] ∨
        jsIncludes (jsToLower (searchText n)) (jsToLower q.data) = true) := by
  unfold filterNodes typeFiltered
  simp only [List.length_nil, lt_irrefl, if_false]
  by_cases hq : jsTrim q = []
  · simp [hq]
  · simp [hq, List.mem_filter]

/-- C6: with an empty query and no active type filters the filtered node
list is exactly the full node list, so its cardinality equals the graph's
node count. -/
theorem c6_empty_filters_keep_all (ns : List GraphNode) :
    filterNodes ns "" [] = ns ∧ (filterNodes ns "" []).length = ns.length := by
  have h : filterNodes ns "" [] = ns := by
    have h0 : jsTrim "" = [] := by decide
    unfold filterNodes typeFiltered
    simp [h0]
  exact ⟨h, by rw [h]⟩

/-- Characterisation of the `forEach` accumulation: folding `connStep` from
any accumulator appends exactly the incoming and outgoing comprehensions of
the traversed edges. -/
theorem connStep_foldl (g : GraphData) (nodeId : String) :
    ∀ (es : List GraphEdge)
      (acc : List (GraphNode × GraphEdge) × List (GraphNode × GraphEdge)),
      es.foldl (connStep g nodeId) acc =
        (acc.1 ++ es.filterMap (inPair g nodeId),
         acc.2 ++ es.filterMap (outPair g nodeId)) := by
  intro es
  induction es with
  | nil => intro acc; simp
  | cons e es ih =>
      intro acc
      rw [List.foldl_cons, ih]
      by_cases h1 : e.target = nodeId
      · cases hf : g.nodes.find? (fun n => n.id == e.source) with
        | some s => simp [connStep, inPair, outPair, h1, hf]
        | none => simp [connStep, inPair, outPair, h1, hf]
      · by_cases h2 : e.source = nodeId
        · cases hf : g.nodes.find? (fun n => n.id == e.target) with
          | some t => simp [connStep, inPair, outPair, h1, h2, hf]
          | none => simp [connStep, inPair, outPair, h1, h2, hf]
        · simp [connStep, inPair, outPair, h1, h2]

/-- Incoming component of `findConnectedNodes` as a comprehension. -/
theorem findConnectedNodes_fst (g : GraphData) (nodeId : String) :
    (findConnectedNodes g nodeId).1 = specIncoming g nodeId := by
  unfold findConnectedNodes specIncoming
  rw [connStep_foldl]
  simp

/-- Outgoing component of `findConnectedNodes` as a comprehension. -/
theorem findConnectedNodes_snd (g : GraphData) (nodeId : String) :
    (findConnectedNodes g nodeId).2 = specOutgoing g nodeId := by
  unfold findConnectedNodes specOutgoing
  rw [connStep_foldl]
  simp

/-- C2: counterexample. On the one-node graph with the self-loop `A → A`,
the ego network of `A` places the pair `(A, A→A)` in `incoming` only: the
`else if` in the edge scan never classifies an edge as outgoing once its
target matched, so a self-loop does not appear in both lists as the claim
requires. -/
theorem c2_self_loop_only_incoming :
    (findConnectedNodes gSelfLoop "A").1 = [(nodeA, edgeAA)] ∧
      (findConnectedNodes gSelfLoop "A").2 = [] := by
  constructor
  · decide
  · decide

/-- C2 (amended): for every graph and node id, `incoming` equals exactly the
pairs `(source(e), e)` over the edges with `target(e) = n` whose source id
resolves in the node list, and `outgoing` equals exactly the pairs
`(target(e), e)` over the non-self-loop edges with `source(e) = n` whose
target id resolves; a self-loop therefore appears only in `incoming`, and
edges with an unresolvable endpoint are dropped. -/
theorem c2_ego_network_amended (g : GraphData) (nodeId : String) :
    (findConnectedNodes g nodeId).1 = specIncoming g nodeId ∧
      (findConnectedNodes g nodeId).2 = specOutgoing g nodeId := by
  unfold findConnectedNodes specIncoming specOutgoing
  rw [connStep_foldl]
  simp

/-- C10: every `(node, edge)` pair produced by the ego-network scan
references a node present in the graph's node list and an edge present in
its edge list; the computation is total, and an edge whose relevant
endpoint id has no matching node contributes no pair. -/
theorem c10_ego_pairs_resolve (g : GraphData) (nodeId : String)
    (node : GraphNode) (edge : GraphEdge)
    (h : (node, edge) ∈ (findConnectedNodes g nodeId).1 ∨
         (node, edge) ∈ (findConnectedNodes g nodeId).2) :
    node ∈ g.nodes ∧ edge ∈ g.edges := by
  rcases h with h | h
  · rw [findConnectedNodes_fst] at h
    unfold specIncoming at h
    rcases List.mem_filterMap.1 h with ⟨e0, he0, hpair⟩
    unfold inPair at hpair
    by_cases ht : e0.target = nodeId
    · rw [if_pos ht] at hpair
      rcases Option.map_eq_some'.1 hpair with ⟨s, hs, hse⟩
      rcases Prod.mk.injEq .. ▸ hse with ⟨rfl, rfl⟩
      exact ⟨List.mem_of_find?_eq_some hs, he0⟩
    · rw [if_neg ht] at hpair
      exact absurd hpair (by simp)
  · rw [findConnectedNodes_snd] at h
    unfold specOutgoing at h
    rcases List.mem_filterMap.1 h with ⟨e0, he0, hpair⟩
    unfold outPair at hpair
    by_cases ht : e0.target ≠ nodeId ∧ e0.source = nodeId
    · rw [if_pos ht] at hpair
      rcases Option.map_eq_some'.1 hpair with ⟨t, hs, hse⟩
      rcases Prod.mk.injEq .. ▸ hse with ⟨rfl, rfl⟩
      exact ⟨List.mem_of_find?_eq_some hs, he0⟩
    · rw [if_neg ht] at hpair
      exact absurd hpair (by simp)

/-- C10 witness: on the two-node graph `P → Q`, the pair `(P, P→Q)` is in
the incoming list of `Q`, and the theorem yields that `P` is a node of the
graph and `P→Q` one of its edges. -/
theorem c10_ego_pairs_resolve_witness :
    ((nodeP, edgePQ) ∈ (findConnectedNodes gPQ "Q").1 ∨
      (nodeP, edgePQ) ∈ (findConnectedNodes gPQ "Q").2) ∧
      nodeP ∈ gPQ.nodes ∧ edgePQ ∈ gPQ.edges :=
  ⟨Or.inl (by decide),
    c10_ego_pairs_resolve gPQ "Q" nodeP edgePQ (Or.inl (by decide))⟩

/-- C3: counterexample. A successfully loaded graph document with zero
nodes is truthy, so the component renders the canvas view, not the
"no data" message, and the simulation-initialisation effect still runs,
starting a force simulation over the empty node set — exactly what the
claim rules out. -/
theorem c3_zero_nodes_renders_canvas :
    renderView false none (some zeroNodeGraph) = RenderView.canvasView ∧
      renderView false none (some zeroNodeGraph) ≠ RenderView.noDataView ∧
      simulationStarts (some zeroNodeGraph) true = true := by
  refine ⟨by decide, by decide, by decide⟩

/-- C3 (amended): outside the loading and error screens, the explicit
"no data" state is shown exactly when no graph document is loaded
(`graphData` is null); with any loaded graph — zero nodes included — the
canvas renders and the simulation-initialisation effect runs. -/
theorem c3_no_data_iff_unloaded (g : Option GraphData) :
    (renderView false none g = RenderView.noDataView ↔ g = none) ∧
      simulationStarts g true = g.isSome := by
  cases g with
  | none => simp [renderView, simulationStarts]
  | some gd => simp [renderView, simulationStarts]

/-- C7: the viewport scale produced by any user zoom gesture (any factor
applied to any current scale) lies in the configured interval
`[0.1, 4.0]`. -/
theorem c7_scale_always_clamped (currentScale factor : ℚ) :
    scaleExtentLo ≤ applyUserZoom currentScale factor ∧
      applyUserZoom currentScale factor ≤ scaleExtentHi := by
  unfold applyUserZoom constrainScale
  refine ⟨le_max_left _ _, max_le ?_ (min_le_left _ _)⟩
  unfold scaleExtentLo scaleExtentHi
  norm_num

/-- Ticks on a pinned node: with the pin set to `(a, b)`, any positive
number of simulation ticks drives the position to the pin and leaves the pin
in place. -/
theorem foldl_replicate_tick (f : SimNode → Int × Int) (a b : Int) :
    ∀ (k : Nat) (s : SimNode), s.fx = some a → s.fy = some b →
      List.foldl (stepDrag f) s (List.replicate (k + 1) DragEvent.tick) =
        { x := a, y := b, fx := some a, fy := some b } := by
  intro k
  induction k with
  | zero =>
      intro s hx hy
      simp [List.replicate, stepDrag, hx, hy]
  | succ k ih =>
      intro s hx hy
      rw [List.replicate_succ, List.foldl_cons]
      exact ih _ (by simp [stepDrag, hx]) (by simp [stepDrag, hy])

/-- C4: counterexample. In the drag sequence start → move(5, 7) → end with
no simulation tick between the move and the end, the handlers clear the pin
but never write the position: the node stays at `(0, 0)`, not at the last
drag coordinate `(5, 7)` as the claim requires. -/
theorem c4_no_tick_keeps_old_position :
    runDrag (fun s => (s.x, s.y)) { x := 0, y := 0, fx := none, fy := none }
        [DragEvent.dragStart, DragEvent.dragMove 5 7, DragEvent.dragEnd] =
      { x := 0, y := 0, fx := none, fy := none } ∧
      (runDrag (fun s => (s.x, s.y))
          { x := 0, y := 0, fx := none, fy := none }
          [DragEvent.dragStart, DragEvent.dragMove 5 7,
            DragEvent.dragEnd]).x ≠ 5 := by
  constructor
  · decide
  · decide

/-- C4 (amended): for every integration step, start state, interleaving of
moves and ticks, and final move to `(px, py)`, if at least one simulation
tick runs between the last drag-move and the drag-end then immediately
after the end event the pin is null and the position equals the last drag
coordinate. Without such a tick the pin is still cleared but the position
keeps its last tick-written value (the drag handlers write only the
pin). -/
theorem c4_drag_amended (f : SimNode → Int × Int) (n : SimNode)
    (pre : List DragEvent) (px py : Int) (m : Nat) :
    runDrag f n ((DragEvent.dragStart :: pre) ++
        DragEvent.dragMove px py ::
          (List.replicate (m + 1) DragEvent.tick ++ [DragEvent.dragEnd])) =
      { x := px, y := py, fx := none, fy := none } := by
  unfold runDrag
  rw [List.foldl_append, List.foldl_cons, List.foldl_append]
  rw [foldl_replicate_tick f px py m _ (by simp [stepDrag]) (by simp [stepDrag])]
  simp [stepDrag]

/-- Second components of an `enumFrom` list are members of the list. -/
theorem snd_mem_enumFrom {α : Type} :
    ∀ (l : List α) (j : Nat) (p : Nat × α), p ∈ l.enumFrom j → p.2 ∈ l := by
  intro l
  induction l with
  | nil => intro j p hp; simp [List.enumFrom] at hp
  | cons a t ih =>
      intro j p hp
      rw [List.enumFrom] at hp
      rcases List.mem_cons.1 hp with h | h
      · subst h; exact List.mem_cons_self a t
      · exact List.mem_cons_of_mem a (ih (j + 1) p h)

/-- C5: counterexample. With selected node `S` and the two neighbors
`A, B` (`k = 2`), the clone layout places neighbor 0 (`A`) at angle
`1 * 2π / 2 = π` (turn fraction 1/2), not at the claimed angle
`0 * 2π / 2 = 0`: the index in the angle formula runs over the whole local
node list whose first entry is the selected node, so the i-th neighbor gets
angle `(i+1) * 2π / k`. The two placements genuinely differ
(`cos π · 80 = -80 ≠ 80 = cos 0 · 80`). -/
theorem c5_first_neighbor_angle_shifted :
    nodesCopyInit "S" ["S", "A", "B"] =
      [("S", LocalInitPos.pinnedCenter),
       ("A", LocalInitPos.onCircle (1 / 2) 80),
       ("B", LocalInitPos.onCircle 1 80)] ∧
      ((1 : ℚ) / 2) ≠ 0 := by
  constructor
  · simp +decide [nodesCopyInit, List.enum, List.enumFrom]
    norm_num
  · norm_num

/-- C5 (amended): when the ego-graph panel is created for a selected node
with neighbors `neigh` (the selected id not among them), the selected node
starts pinned at the panel centre and the node at overall index `i` of the
local node list (`i = 1 .. k`, the selected node being index 0) starts on
the circle of radius 80 at angle `i * 2π / k`; equivalently the j-th
neighbor (`j = 0 .. k-1`) sits at angle `(j+1) * 2π / k` rather than the
claimed `j * 2π / k`. -/
theorem c5_ego_layout_amended (selId : String) (neigh : List String)
    (h : selId ∉ neigh) :
    nodesCopyInit selId (selId :: neigh) =
      (selId, LocalInitPos.pinnedCenter) ::
        (neigh.enumFrom 1).map (fun p =>
          (p.2, LocalInitPos.onCircle ((p.1 : ℚ) / (neigh.length : ℚ)) 80)) := by
  unfold nodesCopyInit
  have henum : (selId :: neigh).enum = (0, selId) :: neigh.enumFrom 1 := rfl
  rw [henum, List.map_cons]
  have hlen : (((selId :: neigh).length : ℚ)) - 1 = (neigh.length : ℚ) := by
    rw [List.length_cons]
    push_cast
    ring
  congr 1
  · simp
  · apply List.map_congr_left
    intro p hp
    have hne : p.2 ≠ selId := fun hEq =>
      h (hEq ▸ snd_mem_enumFrom neigh 1 p hp)
    rw [if_neg hne, hlen]

/-- C5 witness: the amended layout theorem evaluated at selected node `S`
with neighbors `A, B`. -/
theorem c5_ego_layout_amended_witness :
    ("S" ∉ (["A", "B"] : List String)) ∧
      nodesCopyInit "S" ["S", "A", "B"] =
        ("S", LocalInitPos.pinnedCenter) ::
          ((["A", "B"].enumFrom 1).map (fun p =>
            (p.2, LocalInitPos.onCircle
              ((p.1 : ℚ) / (((["A", "B"] : List String).length : ℚ))) 80))) :=
  ⟨by decide, c5_ego_layout_amended "S" ["A", "B"] (by decide)⟩

/-- C8: invoking the search-panel focus with a node id absent from the
loaded graph is a complete no-op: `graphData.nodes.find` fails, the guard
skips the whole body, so the selection, the view flags and the viewport
transform are unchanged whatever the polling loop would have observed (in
particular after the at-most-8-attempt budget expires), and the computation
is total, so no exception is raised. -/
theorem c8_focus_missing_id_noop (g : GraphData) (obs : List (Option (ℚ × ℚ)))
    (wd ht : ℚ) (nodeId : String) (st : ViewState)
    (h : ∀ n ∈ g.nodes, n.id ≠ nodeId) :
    focusOnNodeFromSearch g obs wd ht nodeId st = st := by
  have hf : g.nodes.find? (fun n => n.id == nodeId) = none :=
    List.find?_eq_none.2 (fun n hn => by simp [h n hn])
  simp [focusOnNodeFromSearch, hf]

/-- C8 witness: focusing on the id `Z`, absent from the two-node graph
`P → Q`, leaves a concrete view state unchanged. -/
theorem c8_focus_missing_id_noop_witness :
    (∀ n ∈ gPQ.nodes, n.id ≠ "Z") ∧
      focusOnNodeFromSearch gPQ [none, some (3, 4)] 1200 800 "Z" stW = stW :=
  ⟨by decide,
    c8_focus_missing_id_noop gPQ [none, some (3, 4)] 1200 800 "Z" stW
      (by decide)⟩

/-- Every binding's reference is bounded by the store's maximal
reference. -/
theorem le_maxRef : ∀ (σ : Store) (p : Ref × NodeObj), p ∈ σ → p.1 ≤ maxRef σ := by
  intro σ
  induction σ with
  | nil => intro p hp; simp at hp
  | cons q t ih =>
      intro p hp
      rw [show maxRef (q :: t) = max q.1 (maxRef t) from rfl]
      rcases List.mem_cons.1 hp with h | h
      · subst h; exact le_max_left _ _
      · exact le_trans (ih p h) (le_max_right _ _)

/-- Reading an already-bound reference is unaffected by bindings appended
on the right. -/
theorem lookupRef_append_left (τ : Store) (r : Ref) :
    ∀ σ : Store, r ∈ σ.map Prod.fst → lookupRef (σ ++ τ) r = lookupRef σ r := by
  intro σ
  induction σ with
  | nil => intro hr; simp at hr
  | cons q t ih =>
      intro hr
      by_cases hq : q.1 = r
      · simp [lookupRef, hq]
      · have hr2 : r ∈ t.map Prod.fst := by
          rcases List.mem_map.1 hr with ⟨p, hp, hpr⟩
          rcases List.mem_cons.1 hp with h | h
          · exact absurd (h ▸ hpr) hq
          · exact List.mem_map.2 ⟨p, h, hpr⟩
        simpa [lookupRef, hq] using ih hr2

/-- Writing through one reference does not change what any other reference
reads. -/
theorem lookupRef_writeRef_ne (σ : Store) (f : NodeObj → NodeObj)
    (r r1 : Ref) (h : r ≠ r1) :
    lookupRef (writeRef σ r1 f) r = lookupRef σ r := by
  induction σ with
  | nil => rfl
  | cons q t ih =>
      rw [show writeRef (q :: t) r1 f =
          (if q.1 = r1 then (q.1, f q.2) else q) :: writeRef t r1 f from rfl]
      by_cases hq1 : q.1 = r1
      · rw [if_pos hq1]
        have hne : q.1 ≠ r := fun hh => h (hh.symm.trans hq1)
        rw [show lookupRef ((q.1, f q.2) :: writeRef t r1 f) r =
            if q.1 = r then some (f q.2) else lookupRef (writeRef t r1 f) r
            from rfl]
        rw [show lookupRef (q :: t) r =
            if q.1 = r then some q.2 else lookupRef t r from rfl]
        rw [if_neg hne, if_neg hne]
        exact ih
      · rw [if_neg hq1]
        rw [show lookupRef (q :: writeRef t r1 f) r =
            if q.1 = r then some q.2 else lookupRef (writeRef t r1 f) r
            from rfl]
        rw [show lookupRef (q :: t) r =
            if q.1 = r then some q.2 else lookupRef t r from rfl]
        by_cases hqr : q.1 = r
        · rw [if_pos hqr, if_pos hqr]
        · rw [if_neg hqr, if_neg hqr]
          exact ih

/-- A clamp tick writes only through the given references, so any other
reference reads unchanged. -/
theorem lookupRef_egoTick (w h : ℚ) (r : Ref) :
    ∀ (refs : List Ref) (σ : Store), (∀ x ∈ refs, x ≠ r) →
      lookupRef (egoTick σ refs w h) r = lookupRef σ r := by
  intro refs
  induction refs with
  | nil => intro σ hne; rfl
  | cons a t ih =>
      intro σ hne
      rw [show egoTick σ (a :: t) w h =
          egoTick (writeRef σ a (clampWrite w h)) t w h from rfl]
      rw [ih _ (fun x hx => hne x (List.mem_cons_of_mem a hx))]
      exact lookupRef_writeRef_ne σ (clampWrite w h) r a
        (fun hEq => hne a (List.mem_cons_self a t) hEq.symm)

/-- The pin release writes only through one of the given references, so any
other reference reads unchanged. -/
theorem lookupRef_releasePin (selId : String) (r : Ref)
    (refs : List Ref) (σ : Store) (hne : ∀ x ∈ refs, x ≠ r) :
    lookupRef (releasePin σ refs selId) r = lookupRef σ r := by
  unfold releasePin
  split
  next r2 hf2 =>
    exact lookupRef_writeRef_ne σ _ r r2
      (fun hEq => hne r2 (List.mem_of_find?_eq_some hf2) hEq.symm)
  next => rfl

/-- Any interleaving of clamp ticks and the pin release writes only through
the ego references, so any other reference reads unchanged. -/
theorem lookupRef_runEgoOps (selId : String) (egoRefs : List Ref)
    (w h : ℚ) (r : Ref) (hrefs : ∀ x ∈ egoRefs, x ≠ r) :
    ∀ (ops : List EgoOp) (σ : Store),
      lookupRef (runEgoOps selId egoRefs w h σ ops) r = lookupRef σ r := by
  intro ops
  induction ops with
  | nil => intro σ; rfl
  | cons op ops ih =>
      intro σ
      cases op with
      | tick =>
          rw [show runEgoOps selId egoRefs w h σ (EgoOp.tick :: ops) =
              runEgoOps selId egoRefs w h (egoTick σ egoRefs w h) ops from rfl]
          rw [ih]
          exact lookupRef_egoTick w h r egoRefs σ hrefs
      | release =>
          rw [show runEgoOps selId egoRefs w h σ (EgoOp.release :: ops) =
              runEgoOps selId egoRefs w h (releasePin σ egoRefs selId) ops
              from rfl]
          rw [ih]
          exact lookupRef_releasePin selId r egoRefs σ hrefs

/-- Every clone reference allocated by `createLocalGraph` lies strictly
above every reference of the original store. -/
theorem clone_refs_gt_maxRef (σ : Store) (selId : String)
    (localRefs : List Ref) (w h : ℚ) (initPos : Nat → ℚ × ℚ) :
    ∀ x ∈ (createLocalGraph σ selId localRefs w h initPos).2, maxRef σ < x := by
  intro x hx
  have hx2 : x ∈ (cloneList σ selId localRefs w h initPos).map Prod.fst := hx
  rcases List.mem_map.1 hx2 with ⟨c, hc, hcx⟩
  rcases List.mem_filterMap.1 hc with ⟨p, hp, hpc⟩
  rcases Option.map_eq_some'.1 hpc with ⟨o, ho, hoc⟩
  subst hcx
  rw [← hoc]
  show maxRef σ < maxRef σ + 1 + p.1
  exact Nat.lt_of_lt_of_le (Nat.lt_succ_self _) (Nat.le_add_right _ _)

/-- C9: the ego-graph sub-simulation never mutates a node object owned by
the main graph model. For every store, selected id, local node references,
panel size, circle-placement function and interleaving of clamp ticks and
the delayed pin release, every reference that existed before
`createLocalGraph` allocated its private shallow clones still reads the
same node object afterwards: the initial pinning, the per-tick clamps and
the pin release all write only through the freshly allocated clone
references. -/
theorem c9_ego_sim_never_mutates_main (σ : Store) (selId : String)
    (localRefs : List Ref) (w h : ℚ) (initPos : Nat → ℚ × ℚ)
    (ops : List EgoOp) (r : Ref) (hr : r ∈ σ.map Prod.fst) :
    lookupRef
        (runEgoOps selId (createLocalGraph σ selId localRefs w h initPos).2
          w h (createLocalGraph σ selId localRefs w h initPos).1 ops) r =
      lookupRef σ r := by
  have hrle : r ≤ maxRef σ := by
    rcases List.mem_map.1 hr with ⟨p, hp, hpr⟩
    exact hpr ▸ le_maxRef σ p hp
  have hfresh : ∀ x ∈ (createLocalGraph σ selId localRefs w h initPos).2,
      x ≠ r := by
    intro x hx
    have hgt := clone_refs_gt_maxRef σ selId localRefs w h initPos x hx
    exact fun hEq => absurd (hEq ▸ hgt) (not_lt.2 hrle)
  rw [lookupRef_runEgoOps selId _ w h r hfresh]
  exact lookupRef_append_left (cloneList σ selId localRefs w h initPos) r σ hr

/-- C9 witness: on a concrete two-object store, running the ego pipeline
(clone allocation for both objects with `A` selected, then tick, release,
tick) leaves reference 0 reading its original object. -/
theorem c9_ego_sim_never_mutates_main_witness :
    (0 ∈ storeW.map Prod.fst) ∧
      lookupRef
          (runEgoOps "A"
            (createLocalGraph storeW "A" [0, 1] 320 250 (fun _ => (0, 0))).2
            320 250
            (createLocalGraph storeW "A" [0, 1] 320 250 (fun _ => (0, 0))).1
            [EgoOp.tick, EgoOp.release, EgoOp.tick]) 0 =
        lookupRef storeW 0 :=
  ⟨by decide,
    c9_ego_sim_never_mutates_main storeW "A" [0, 1] 320 250 (fun _ => (0, 0))
      [EgoOp.tick, EgoOp.release, EgoOp.tick] 0 (by decide)⟩
